import Mathlib

/-!
Shallow embedding of `botocore/exceptions.py`.

The module defines a base exception class `BotoCoreError` whose `__init__`
renders `self.fmt.format(**kwargs)` into the exception message and retains
`self.kwargs = kwargs`, together with a flat-to-shallow hierarchy of concrete
error classes, each fixing its own `fmt` template.  We model:

  * `Value` — the Python values supplied as fields to these errors
    (strings, integers, and lists of strings, the shapes the library uses);
  * `pyStr` / `pyRepr` — Python's `str()` / `repr()` on those values;
  * `fmtGo` / `pyFormat` — Python's `str.format(**kwargs)` restricted to the
    simple `{name}` placeholders these templates use: a single left-to-right
    scan that substitutes `str(kwargs[name])` for each placeholder, fails on a
    missing key (KeyError), on a lone `}` and on an unterminated `{`
    (ValueError), and never rescans substituted text;
  * `ErrorClass` / `fmtOf` / `parentOf` — the class hierarchy and each class's
    `fmt` string, transcribed from the source;
  * `construct` — `BotoCoreError.__init__` as inherited by every class:
    it renders the message from the class's template or fails, and retains
    the keyword map.
-/

set_option autoImplicit false
set_option maxRecDepth 16384

namespace Botocore

/-- The Python values that the library passes as keyword fields when raising
these exceptions: strings, integers, and lists of strings (`choices`,
`missing`). -/
inductive Value where
  | VStr (s : String)
  | VInt (n : Int)
  | VListStr (xs : List String)
deriving DecidableEq

/-- Python `repr` of a string: surround with single quotes (no character of
these field values needs escaping). -/
def pyQuote (s : String) : String := "'" ++ s ++ "'"

/-- Python `str()` of a `Value`.  A string renders as itself, an integer in
decimal, and a list as its `repr`: bracketed, comma-and-space separated,
elements quoted. -/
def pyStr : Value → String
  | .VStr s => s
  | .VInt n => toString n
  | .VListStr xs => "[" ++ String.intercalate ", " (xs.map pyQuote) ++ "]"

/-- A keyword map: the `**kwargs` of `BotoCoreError.__init__`, as an
association list from field name to value. -/
abbrev Fields := List (String × Value)

/-- Dictionary lookup in a keyword map: first binding of the name wins. -/
def lookupField : Fields → String → Option Value
  | [], _ => none
  | (k, v) :: rest, name => if k = name then some v else lookupField rest name

/-- State of the left-to-right `str.format` scan: either between placeholders,
or inside `{...}` having accumulated the (reversed) name chars so far. -/
inductive FmtState where
  | lit
  | ph (acc : List Char)
deriving DecidableEq

/-- The scan of Python's `str.format(**kwargs)` over the template characters,
restricted to the plain `{name}` placeholders these templates use.  Outside a
placeholder, `{` opens one, a lone `}` is a ValueError, and any other char is
copied.  Inside a placeholder, `}` closes it: the name is looked up in the
keyword map (a missing name is a KeyError, `none` here) and `str()` of the
value is emitted verbatim — the scan continues after it and never rescans the
substituted text.  An unterminated placeholder is a ValueError. -/
def fmtGo (fields : Fields) : FmtState → List Char → Option (List Char)
  | .lit, [] => some []
  | .lit, c :: rest =>
    if c = '{' then fmtGo fields (.ph []) rest
    else if c = '}' then none
    else (fmtGo fields .lit rest).map (fun out => c :: out)
  | .ph _, [] => none
  | .ph acc, c :: rest =>
    if c = '}' then
      match lookupField fields (String.mk acc.reverse) with
      | none => none
      | some v => (fmtGo fields .lit rest).map (fun out => (pyStr v).data ++ out)
    else fmtGo fields (.ph (c :: acc)) rest

/-- The placeholder names of a template, in order of appearance, extracted by
the same scan as `fmtGo`. -/
def phGo : FmtState → List Char → List String
  | .lit, [] => []
  | .lit, c :: rest =>
    if c = '{' then phGo (.ph []) rest
    else phGo .lit rest
  | .ph _, [] => []
  | .ph acc, c :: rest =>
    if c = '}' then String.mk acc.reverse :: phGo .lit rest
    else phGo (.ph (c :: acc)) rest

/-- Well-formedness of a template under the same scan: no lone `}` and no
unterminated `{`.  Every template in the source is well-formed. -/
def wfGo : FmtState → List Char → Bool
  | .lit, [] => true
  | .lit, c :: rest =>
    if c = '{' then wfGo (.ph []) rest
    else if c = '}' then false
    else wfGo .lit rest
  | .ph _, [] => false
  | .ph acc, c :: rest =>
    if c = '}' then wfGo .lit rest
    else wfGo (.ph (c :: acc)) rest

/-- Python's `tmpl.format(**fields)`: `none` models the KeyError / ValueError
raised during substitution. -/
def pyFormat (tmpl : String) (fields : Fields) : Option String :=
  (fmtGo fields .lit tmpl.data).map String.mk

/-- The placeholder names of a template string, in order of appearance. -/
def placeholders (tmpl : String) : List String :=
  phGo .lit tmpl.data

/-- The exception classes defined in `botocore/exceptions.py`. -/
inductive ErrorClass where
  | BotoCoreError
  | DataNotFoundError
  | NoCredentialsError
  | NoRegionError
  | UnknownSignatureVersionError
  | ServiceNotInRegionError
  | ProfileNotFound
  | ConfigParseError
  | ConfigNotFound
  | MissingParametersError
  | ValidationError
  | UnknownKeyError
  | RangeError
  | UnknownParameterError
  | UnknownServiceStyle
  | PaginationError
  | EventNotFound
  | ChecksumError
  | UnseekableStreamError
  | WaiterError
  | IncompleteReadError
  | InvalidExpressionError
  | UnknownCredentialError
deriving DecidableEq

/-- The `fmt` class attribute of each class, transcribed from the source
(every class except `BotoCoreError` overrides the base's default). -/
def fmtOf : ErrorClass → String
  | .BotoCoreError => "An unspecified error occured"
  | .DataNotFoundError => "Unable to load data for: {data_path}"
  | .NoCredentialsError => "Unable to locate credentials"
  | .NoRegionError =>
    "You must specify a region or set the {env_var} environment variable."
  | .UnknownSignatureVersionError =>
    "Unknown Signature Version: {signature_version}."
  | .ServiceNotInRegionError =>
    "Service {service_name} not available in region {region_name}"
  | .ProfileNotFound => "The config profile ({profile}) could not be found"
  | .ConfigParseError => "Unable to parse config file: {path}"
  | .ConfigNotFound =>
    "The specified config file ({path}) could not be found."
  | .MissingParametersError =>
    "The following required parameters are missing for {object_name}: {missing}"
  | .ValidationError =>
    "Invalid value ('{value}') for param {param} of type {type_name} "
  | .UnknownKeyError =>
    "Unknown key '{value}' for param '{param}'.  Must be one of: {choices}"
  | .RangeError =>
    "Value out of range for param {param}: {min_value} <= {value} <= {max_value}"
  | .UnknownParameterError =>
    "Unknown parameter '{name}' for operation {operation}.  Must be one of: {choices}"
  | .UnknownServiceStyle =>
    "The service style ({service_style}) is not understood."
  | .PaginationError => "Error during pagination: {message}"
  | .EventNotFound => "The event ({event_name}) is not known"
  | .ChecksumError =>
    "Checksum {checksum_type} failed, expected checksum {expected_checksum} did not match calculated checksum {actual_checksum}."
  | .UnseekableStreamError =>
    "Need to rewind the stream {stream_object}, but stream is not seekable."
  | .WaiterError => "Waiter {name} failed: {reason}"
  | .IncompleteReadError =>
    "{actual_bytes} read, but total bytes expected is {expected_bytes}."
  | .InvalidExpressionError =>
    "Invalid expression {expression}: Only dotted lookups are supported."
  | .UnknownCredentialError => "Credential named {name} not found."

/-- The immediate superclass of each class, read off the `class X(Y)` headers:
`BotoCoreError` extends only Python's `Exception`; `UnknownKeyError`,
`RangeError` and `UnknownParameterError` extend `ValidationError`; every other
class extends `BotoCoreError`. -/
def parentOf : ErrorClass → Option ErrorClass
  | .BotoCoreError => none
  | .UnknownKeyError => some .ValidationError
  | .RangeError => some .ValidationError
  | .UnknownParameterError => some .ValidationError
  | _ => some .BotoCoreError

/-- The superclass chain of a class, itself included, following `parentOf`
(fuel 4 suffices: the hierarchy is at most three classes deep). -/
def ancestorsAux : Nat → ErrorClass → List ErrorClass
  | 0, _ => []
  | fuel + 1, c =>
    c :: (match parentOf c with
          | none => []
          | some p => ancestorsAux fuel p)

/-- The superclass chain of a class, itself included. -/
def ancestors (c : ErrorClass) : List ErrorClass :=
  ancestorsAux 4 c

/-- An instance of class `a` is caught by an `except b` clause exactly when
`b` is `a` or one of its superclasses. -/
def catchableAs (a b : ErrorClass) : Prop :=
  b ∈ ancestors a

instance (a b : ErrorClass) : Decidable (catchableAs a b) := by
  unfold catchableAs; infer_instance

/-- A constructed exception object: the message rendered once by `__init__`
(stored in the `Exception` args, what `str()` returns) and the retained
keyword map `self.kwargs`. -/
structure ErrorInstance where
  msg : String
  kwargs : Fields
deriving DecidableEq

/-- `BotoCoreError.__init__` as inherited by class `K`: render
`fmtOf K .format(**kwargs)` — propagating its failure — and retain `kwargs`
unchanged. -/
def construct (K : ErrorClass) (kwargs : Fields) : Option ErrorInstance :=
  (pyFormat (fmtOf K) kwargs).map (fun m => { msg := m, kwargs := kwargs })

/-- Placeholder names of the template of class `K`: its required field set. -/
def requiredOf (K : ErrorClass) : List String :=
  placeholders (fmtOf K)

/-- `str(instance)`: returns the message stored at construction, verbatim. -/
def strConv (inst : ErrorInstance) : String :=
  inst.msg

/-- Field access `instance.kwargs.get(name)`: read-only lookup into the
retained keyword map; `none` is "absent". -/
def fieldAccess (inst : ErrorInstance) (name : String) : Option Value :=
  lookupField inst.kwargs name

/-- Replacing the retained keyword map after construction (models a mutation
of `self.kwargs`, which does not touch the message stored in the
`Exception` args). -/
def setKwargs (inst : ErrorInstance) (kw : Fields) : ErrorInstance :=
  { inst with kwargs := kw }

/-- The keyword map restricted to the names in `names`, order preserved. -/
def restrictFields (fields : Fields) (names : List String) : Fields :=
  fields.filter (fun kv => decide (kv.1 ∈ names))

/-- A piece of a parsed template: either a literal character or a `{name}`
placeholder. -/
inductive Segment where
  | lit (c : Char)
  | hole (name : String)
deriving DecidableEq

/-- Parsing a template into its segments, by the same scan as `fmtGo` but
without any field map. -/
def parseGo : FmtState → List Char → Option (List Segment)
  | .lit, [] => some []
  | .lit, c :: rest =>
    if c = '{' then parseGo (.ph []) rest
    else if c = '}' then none
    else (parseGo .lit rest).map (fun segs => .lit c :: segs)
  | .ph _, [] => none
  | .ph acc, c :: rest =>
    if c = '}' then
      (parseGo .lit rest).map (fun segs => .hole (String.mk acc.reverse) :: segs)
    else parseGo (.ph (c :: acc)) rest

/-- Modelled from the spec: single-pass rendering of a parsed template — each
literal character is copied and each placeholder is replaced wholesale by the
string form of its field value, inserted as an opaque block that is never
re-examined for further placeholders. -/
def renderSegs (fields : Fields) : List Segment → Option (List Char)
  | [] => some []
  | .lit c :: rest => (renderSegs fields rest).map (fun out => c :: out)
  | .hole name :: rest =>
    match lookupField fields name with
    | none => none
    | some v => (renderSegs fields rest).map (fun out => (pyStr v).data ++ out)

/-- A character list containing neither brace. -/
def braceFreeL (cs : List Char) : Bool :=
  cs.all (fun c => !(c == '{' || c == '}'))

/-- A string containing neither brace. -/
def braceFree (s : String) : Bool :=
  braceFreeL s.data

/-! ### Helper lemmas about the format scan -/

/-- A successful dictionary lookup returns a binding present in the map. -/
theorem lookupField_mem {fields : Fields} {name : String} {v : Value}
    (h : lookupField fields name = some v) : (name, v) ∈ fields := by
  induction fields with
  | nil => simp [lookupField] at h
  | cons kv rest ih =>
    obtain ⟨k, w⟩ := kv
    by_cases hk : k = name
    · simp only [lookupField, if_pos hk] at h
      cases h
      subst hk
      exact List.mem_cons_self _ _
    · simp only [lookupField, if_neg hk] at h
      exact List.mem_cons_of_mem _ (ih h)

/-- If a name scanned as a placeholder has no binding, the whole format scan
fails (Python's KeyError). -/
theorem fmtGo_missing (fields : Fields) (name : String)
    (hlk : lookupField fields name = none) :
    ∀ (cs : List Char) (st : FmtState),
      name ∈ phGo st cs → fmtGo fields st cs = none := by
  intro cs
  induction cs with
  | nil =>
    intro st h
    cases st with
    | lit => simp [phGo] at h
    | ph acc => rfl
  | cons c rest ih =>
    intro st h
    cases st with
    | lit =>
      by_cases hc : c = '{'
      · simp only [phGo, if_pos hc] at h
        simp only [fmtGo, if_pos hc]
        exact ih _ h
      · simp only [phGo, if_neg hc] at h
        by_cases hc2 : c = '}'
        · simp [fmtGo, if_neg hc, if_pos hc2]
        · simp [fmtGo, if_neg hc, if_neg hc2, ih _ h]
    | ph acc =>
      by_cases hc : c = '}'
      · simp only [phGo, if_pos hc, List.mem_cons] at h
        simp only [fmtGo, if_pos hc]
        rcases h with h | h
        · rw [← h, hlk]
        · cases hlook : lookupField fields (String.mk acc.reverse) with
          | none => rfl
          | some v => simp [ih _ h]
      · simp only [phGo, if_neg hc] at h
        simp only [fmtGo, if_neg hc]
        exact ih _ h

/-- A template without braces formats to itself, whatever the field map. -/
theorem fmtGo_braceFree_id (fields : Fields) :
    ∀ cs : List Char, braceFreeL cs = true → fmtGo fields .lit cs = some cs := by
  intro cs
  induction cs with
  | nil => intro _; rfl
  | cons c rest ih =>
    intro h
    simp only [braceFreeL, List.all_cons, Bool.and_eq_true, Bool.not_eq_true',
      Bool.or_eq_false_iff, beq_eq_false_iff_ne, ne_eq] at h
    obtain ⟨⟨hc1, hc2⟩, h2⟩ := h
    have := ih (by simpa [braceFreeL] using h2)
    simp [fmtGo, if_neg hc1, if_neg hc2, this]

/-- Every template in the source is well-formed: no lone brace. -/
theorem wf_fmtOf : ∀ K : ErrorClass, wfGo .lit (fmtOf K).data = true := by
  intro K
  cases K <;> rfl

/-- The format scan only consults the field map at the scanned placeholder
names: two maps agreeing there format identically. -/
theorem fmtGo_agree (f1 f2 : Fields) :
    ∀ (cs : List Char) (st : FmtState),
      (∀ name ∈ phGo st cs, lookupField f1 name = lookupField f2 name) →
      fmtGo f1 st cs = fmtGo f2 st cs := by
  intro cs
  induction cs with
  | nil =>
    intro st _
    cases st <;> rfl
  | cons c rest ih =>
    intro st hag
    cases st with
    | lit =>
      by_cases hc : c = '{'
      · simp only [phGo, if_pos hc] at hag
        simp only [fmtGo, if_pos hc]
        exact ih _ hag
      · simp only [phGo, if_neg hc] at hag
        by_cases hc2 : c = '}'
        · simp [fmtGo, if_neg hc, if_pos hc2]
        · simp [fmtGo, if_neg hc, if_neg hc2, ih _ hag]
    | ph acc =>
      by_cases hc : c = '}'
      · simp only [phGo, if_pos hc, List.mem_cons] at hag
        simp only [fmtGo, if_pos hc]
        rw [hag (String.mk acc.reverse) (Or.inl rfl)]
        cases lookupField f2 (String.mk acc.reverse) with
        | none => rfl
        | some v => rw [ih _ (fun name h => hag name (Or.inr h))]
      · simp only [phGo, if_neg hc] at hag
        simp only [fmtGo, if_neg hc]
        exact ih _ hag

/-- On a well-formed template whose placeholder names are all bound, the
format scan succeeds. -/
theorem fmtGo_isSome (fields : Fields) :
    ∀ (cs : List Char) (st : FmtState),
      wfGo st cs = true →
      (∀ name ∈ phGo st cs, (lookupField fields name).isSome = true) →
      (fmtGo fields st cs).isSome = true := by
  intro cs
  induction cs with
  | nil =>
    intro st hwf _
    cases st with
    | lit => rfl
    | ph acc => simp [wfGo] at hwf
  | cons c rest ih =>
    intro st hwf hbound
    cases st with
    | lit =>
      by_cases hc : c = '{'
      · simp only [wfGo, if_pos hc] at hwf
        simp only [phGo, if_pos hc] at hbound
        simp only [fmtGo, if_pos hc]
        exact ih _ hwf hbound
      · by_cases hc2 : c = '}'
        · simp [wfGo, if_neg hc, if_pos hc2] at hwf
        · simp only [wfGo, if_neg hc, if_neg hc2] at hwf
          simp only [phGo, if_neg hc] at hbound
          have := ih _ hwf hbound
          cases hfg : fmtGo fields .lit rest with
          | none => rw [hfg] at this; simp at this
          | some out => simp [fmtGo, if_neg hc, if_neg hc2, hfg]
    | ph acc =>
      by_cases hc : c = '}'
      · simp only [wfGo, if_pos hc] at hwf
        simp only [phGo, if_pos hc, List.mem_cons] at hbound
        have hhead := hbound (String.mk acc.reverse) (Or.inl rfl)
        cases hlook : lookupField fields (String.mk acc.reverse) with
        | none => rw [hlook] at hhead; simp at hhead
        | some v =>
          have := ih _ hwf (fun name h => hbound name (Or.inr h))
          cases hfg : fmtGo fields .lit rest with
          | none => rw [hfg] at this; simp at this
          | some out => simp [fmtGo, if_pos hc, hlook, hfg]
      · simp only [wfGo, if_neg hc] at hwf
        simp only [phGo, if_neg hc] at hbound
        simp only [fmtGo, if_neg hc]
        exact ih _ hwf hbound

/-- When every field value's string form is brace free, so is any output of
the format scan: every literal template character that survives is brace free,
and substituted blocks are brace free by hypothesis. -/
theorem fmtGo_out_braceFree (fields : Fields)
    (hv : ∀ kv ∈ fields, braceFree (pyStr kv.2) = true) :
    ∀ (cs : List Char) (st : FmtState) (out : List Char),
      fmtGo fields st cs = some out → braceFreeL out = true := by
  intro cs
  induction cs with
  | nil =>
    intro st out h
    cases st with
    | lit => cases h; rfl
    | ph acc => simp [fmtGo] at h
  | cons c rest ih =>
    intro st out h
    cases st with
    | lit =>
      by_cases hc : c = '{'
      · simp only [fmtGo, if_pos hc] at h
        exact ih _ _ h
      · by_cases hc2 : c = '}'
        · simp [fmtGo, if_neg hc, if_pos hc2] at h
        · simp only [fmtGo, if_neg hc, if_neg hc2, Option.map_eq_some'] at h
          obtain ⟨out', hout', rfl⟩ := h
          have := ih _ _ hout'
          simp [braceFreeL, List.all_cons] at this ⊢
          exact ⟨⟨hc, hc2⟩, this⟩
    | ph acc =>
      by_cases hc : c = '}'
      · simp only [fmtGo, if_pos hc] at h
        cases hlook : lookupField fields (String.mk acc.reverse) with
        | none => rw [hlook] at h; simp at h
        | some v =>
          rw [hlook] at h
          simp only [Option.map_eq_some'] at h
          obtain ⟨out', hout', rfl⟩ := h
          have h1 := hv _ (lookupField_mem hlook)
          have h2 := ih _ _ hout'
          simp only [braceFreeL, List.all_append, Bool.and_eq_true]
          exact ⟨h1, h2⟩
      · simp only [fmtGo, if_neg hc] at h
        exact ih _ _ h

/-- The string form of a bound value of any scanned placeholder name occurs
as a contiguous block of the format scan's output. -/
theorem fmtGo_contains (fields : Fields) (name : String) (v : Value)
    (hlk : lookupField fields name = some v) :
    ∀ (cs : List Char) (st : FmtState) (out : List Char),
      name ∈ phGo st cs → fmtGo fields st cs = some out →
      ∃ pre post, out = pre ++ (pyStr v).data ++ post := by
  intro cs
  induction cs with
  | nil =>
    intro st out h _
    cases st with
    | lit => simp [phGo] at h
    | ph acc => simp [phGo] at h
  | cons c rest ih =>
    intro st out h hfmt
    cases st with
    | lit =>
      by_cases hc : c = '{'
      · simp only [phGo, if_pos hc] at h
        simp only [fmtGo, if_pos hc] at hfmt
        exact ih _ _ h hfmt
      · simp only [phGo, if_neg hc] at h
        by_cases hc2 : c = '}'
        · simp [fmtGo, if_neg hc, if_pos hc2] at hfmt
        · simp only [fmtGo, if_neg hc, if_neg hc2, Option.map_eq_some'] at hfmt
          obtain ⟨out', hout', rfl⟩ := hfmt
          obtain ⟨pre, post, rfl⟩ := ih _ _ h hout'
          exact ⟨c :: pre, post, rfl⟩
    | ph acc =>
      by_cases hc : c = '}'
      · simp only [phGo, if_pos hc, List.mem_cons] at h
        simp only [fmtGo, if_pos hc] at hfmt
        rcases h with h | h
        · rw [← h, hlk] at hfmt
          simp only [Option.map_eq_some'] at hfmt
          obtain ⟨out', _, rfl⟩ := hfmt
          exact ⟨[], out', rfl⟩
        · cases hlook : lookupField fields (String.mk acc.reverse) with
          | none => rw [hlook] at hfmt; simp at hfmt
          | some w =>
            rw [hlook] at hfmt
            simp only [Option.map_eq_some'] at hfmt
            obtain ⟨out', hout', rfl⟩ := hfmt
            obtain ⟨pre, post, rfl⟩ := ih _ _ h hout'
            exact ⟨(pyStr w).data ++ pre, post, by simp⟩
      · simp only [phGo, if_neg hc] at h
        simp only [fmtGo, if_neg hc] at hfmt
        exact ih _ _ h hfmt

/-- Restricting a keyword map to a name set does not change lookups of names
inside the set. -/
theorem lookupField_restrict (names : List String) (name : String)
    (hmem : name ∈ names) :
    ∀ fields : Fields,
      lookupField (restrictFields fields names) name = lookupField fields name := by
  intro fields
  induction fields with
  | nil => rfl
  | cons kv rest ih =>
    obtain ⟨k, v⟩ := kv
    by_cases hk : k = name
    · subst hk
      simp only [restrictFields, List.filter_cons, decide_eq_true hmem]
      simp [lookupField, ih]
    · by_cases hkn : k ∈ names
      · simp only [restrictFields, List.filter_cons, decide_eq_true hkn]
        simp only [restrictFields] at ih
        simp [lookupField, if_neg hk, ih]
      · simp only [restrictFields, List.filter_cons] at ih ⊢
        rw [decide_eq_false hkn]
        simp only [Bool.false_eq_true, if_false, ih]
        simp [lookupField, if_neg hk]

/-- The format scan coincides with parsing the template into segments and
rendering the segments in a single pass. -/
theorem fmtGo_eq_parse_render (fields : Fields) :
    ∀ (cs : List Char) (st : FmtState),
      fmtGo fields st cs = (parseGo st cs).bind (renderSegs fields) := by
  intro cs
  induction cs with
  | nil =>
    intro st
    cases st <;> rfl
  | cons c rest ih =>
    intro st
    cases st with
    | lit =>
      by_cases hc : c = '{'
      · simp only [fmtGo, parseGo, if_pos hc]
        exact ih _
      · by_cases hc2 : c = '}'
        · simp [fmtGo, parseGo, if_neg hc, if_pos hc2]
        · simp only [fmtGo, parseGo, if_neg hc, if_neg hc2, ih (.lit)]
          cases parseGo .lit rest with
          | none => rfl
          | some segs =>
            simp [renderSegs]
    | ph acc =>
      by_cases hc : c = '}'
      · simp only [fmtGo, parseGo, if_pos hc, ih (.lit)]
        cases parseGo .lit rest with
        | none =>
          cases lookupField fields (String.mk acc.reverse) <;> simp [renderSegs]
        | some segs =>
          cases hlook : lookupField fields (String.mk acc.reverse) <;>
            simp [renderSegs, hlook]
      · simp only [fmtGo, parseGo, if_neg hc]
        exact ih _

/-! ### Claim theorems -/

/-- C2: for every concrete error kind and every field map that omits at least
one field name referenced by the kind's template, construction fails — the
substitution fault propagates and no instance is returned. -/
theorem claim_C2 (K : ErrorClass) (fields : Fields) (name : String)
    (href : name ∈ requiredOf K)
    (habs : lookupField fields name = none) :
    construct K fields = none := by
  unfold construct pyFormat
  rw [fmtGo_missing fields name habs _ _ href]
  rfl

/-- Witness for C2: constructing `RangeError` without `max_value` fails. -/
theorem claim_C2_witness :
    "max_value" ∈ requiredOf ErrorClass.RangeError ∧
    lookupField
      [("param", Value.VStr "Count"), ("value", Value.VInt 50),
       ("min_value", Value.VInt 1)] "max_value" = none ∧
    construct ErrorClass.RangeError
      [("param", Value.VStr "Count"), ("value", Value.VInt 50),
       ("min_value", Value.VInt 1)] = none :=
  ⟨by decide, by decide, claim_C2 _ _ "max_value" (by decide) (by decide)⟩

/-- C3: each narrow validation kind is catchable as itself, as
`ValidationError` and as `BotoCoreError` (the three-level is-a chain), and
each narrow kind's message comes from its own complete template: in
particular `RangeError` requires exactly `param`, `min_value`, `value`,
`max_value` — not `type_name` — while the category's own template requires
`value`, `param`, `type_name`. -/
theorem claim_C3 :
    catchableAs .UnknownKeyError .UnknownKeyError ∧
    catchableAs .UnknownKeyError .ValidationError ∧
    catchableAs .UnknownKeyError .BotoCoreError ∧
    catchableAs .RangeError .RangeError ∧
    catchableAs .RangeError .ValidationError ∧
    catchableAs .RangeError .BotoCoreError ∧
    catchableAs .UnknownParameterError .UnknownParameterError ∧
    catchableAs .UnknownParameterError .ValidationError ∧
    catchableAs .UnknownParameterError .BotoCoreError ∧
    catchableAs .ValidationError .ValidationError ∧
    catchableAs .ValidationError .BotoCoreError ∧
    requiredOf .RangeError = ["param", "min_value", "value", "max_value"] ∧
    "type_name" ∉ requiredOf .RangeError ∧
    requiredOf .ValidationError = ["value", "param", "type_name"] ∧
    requiredOf .UnknownKeyError = ["value", "param", "choices"] ∧
    requiredOf .UnknownParameterError = ["name", "operation", "choices"] := by
  decide

/-- C4: constructing `RangeError` with `param="Count"`, `value=50`,
`min_value=1`, `max_value=10` renders exactly
`"Value out of range for param Count: 1 <= 50 <= 10"`. -/
theorem claim_C4 :
    construct ErrorClass.RangeError
      [("param", Value.VStr "Count"), ("value", Value.VInt 50),
       ("min_value", Value.VInt 1), ("max_value", Value.VInt 10)] =
    some { msg := "Value out of range for param Count: 1 <= 50 <= 10",
           kwargs := [("param", Value.VStr "Count"), ("value", Value.VInt 50),
                      ("min_value", Value.VInt 1), ("max_value", Value.VInt 10)] } :=
  rfl

/-- C5: constructing `UnknownKeyError` with `value="Foo"`, `param="Action"`,
`choices=["Read","Write"]` renders exactly
`"Unknown key 'Foo' for param 'Action'.  Must be one of: ['Read', 'Write']"`
(two spaces after the period; the list rendered in Python's deterministic
`str` convention). -/
theorem claim_C5 :
    construct ErrorClass.UnknownKeyError
      [("value", Value.VStr "Foo"), ("param", Value.VStr "Action"),
       ("choices", Value.VListStr ["Read", "Write"])] =
    some { msg := "Unknown key 'Foo' for param 'Action'.  Must be one of: ['Read', 'Write']",
           kwargs := [("value", Value.VStr "Foo"), ("param", Value.VStr "Action"),
                      ("choices", Value.VListStr ["Read", "Write"])] } :=
  rfl

/-- C9: the two placeholder-free templates — `NoCredentialsError` and a bare
`BotoCoreError` — construct successfully under every field map, empty or not,
and the rendered message is the fixed template string itself. -/
theorem claim_C9 (fields : Fields) :
    construct ErrorClass.NoCredentialsError fields =
      some { msg := "Unable to locate credentials", kwargs := fields } ∧
    construct ErrorClass.BotoCoreError fields =
      some { msg := "An unspecified error occured", kwargs := fields } := by
  constructor
  · have h := fmtGo_braceFree_id fields ("Unable to locate credentials").data (by decide)
    simp [construct, pyFormat, fmtOf, h]
  · have h := fmtGo_braceFree_id fields ("An unspecified error occured").data (by decide)
    simp [construct, pyFormat, fmtOf, h]

/-- Counterexample to C1 as stated: constructing `NoRegionError` with exactly
its required field set, where the supplied value's string form is itself the
text `{env_var}`, succeeds and leaves the literal placeholder `{env_var}` — a
placeholder whose name is in the required field set — in the rendered
message. -/
theorem claim_C1_counterexample :
    "env_var" ∈ requiredOf ErrorClass.NoRegionError ∧
    construct ErrorClass.NoRegionError [("env_var", Value.VStr "{env_var}")] =
      some { msg := "You must specify a region or set the {env_var} environment variable.",
             kwargs := [("env_var", Value.VStr "{env_var}")] } ∧
    (∃ pre post,
      ("You must specify a region or set the {env_var} environment variable.").data =
        pre ++ ("{env_var}").data ++ post) :=
  ⟨by decide, rfl,
   ("You must specify a region or set the ").data,
   (" environment variable.").data, by decide⟩

/-- C1 (amended): for every concrete error kind, if every placeholder name of
its template is bound in the field map and the string forms of the supplied
values are brace free, construction succeeds, retains the field map
unchanged, renders exactly the template substitution, and the rendered
message contains the string form of every supplied required field's value
with no literal `{name}` placeholder remaining (the message is brace
free). -/
theorem claim_C1 (K : ErrorClass) (fields : Fields)
    (hbound : ∀ name ∈ requiredOf K, (lookupField fields name).isSome = true)
    (hbf : ∀ kv ∈ fields, braceFree (pyStr kv.2) = true) :
    ∃ inst,
      construct K fields = some inst ∧
      inst.kwargs = fields ∧
      pyFormat (fmtOf K) fields = some inst.msg ∧
      (∀ name v, name ∈ requiredOf K → lookupField fields name = some v →
        ∃ pre post, inst.msg.data = pre ++ (pyStr v).data ++ post) ∧
      braceFree inst.msg = true := by
  have hsome := fmtGo_isSome fields (fmtOf K).data .lit (wf_fmtOf K) hbound
  cases hfg : fmtGo fields .lit (fmtOf K).data with
  | none => rw [hfg] at hsome; simp at hsome
  | some out =>
    refine ⟨{ msg := String.mk out, kwargs := fields }, ?_, rfl, ?_, ?_, ?_⟩
    · simp [construct, pyFormat, hfg]
    · simp [pyFormat, hfg]
    · intro name v hmem hlk
      exact fmtGo_contains fields name v hlk _ _ _ hmem hfg
    · exact fmtGo_out_braceFree fields hbf _ _ _ hfg

/-- Witness for C1: the amended claim applied to a concrete `ChecksumError`
construction. -/
theorem claim_C1_witness :
    (∀ name ∈ requiredOf ErrorClass.ChecksumError,
      (lookupField
        [("checksum_type", Value.VStr "crc32"),
         ("expected_checksum", Value.VInt 1234),
         ("actual_checksum", Value.VInt 5678)] name).isSome = true) ∧
    (∃ inst,
      construct ErrorClass.ChecksumError
        [("checksum_type", Value.VStr "crc32"),
         ("expected_checksum", Value.VInt 1234),
         ("actual_checksum", Value.VInt 5678)] = some inst ∧
      inst.kwargs =
        [("checksum_type", Value.VStr "crc32"),
         ("expected_checksum", Value.VInt 1234),
         ("actual_checksum", Value.VInt 5678)] ∧
      pyFormat (fmtOf ErrorClass.ChecksumError)
        [("checksum_type", Value.VStr "crc32"),
         ("expected_checksum", Value.VInt 1234),
         ("actual_checksum", Value.VInt 5678)] = some inst.msg ∧
      (∀ name v, name ∈ requiredOf ErrorClass.ChecksumError →
        lookupField
          [("checksum_type", Value.VStr "crc32"),
           ("expected_checksum", Value.VInt 1234),
           ("actual_checksum", Value.VInt 5678)] name = some v →
        ∃ pre post, inst.msg.data = pre ++ (pyStr v).data ++ post) ∧
      braceFree inst.msg = true) :=
  ⟨by decide, claim_C1 ErrorClass.ChecksumError _ (by decide) (by decide)⟩

/-- C6: field access on a constructed instance looks up the retained field
map, which equals the input field map unchanged: a supplied name round-trips
to its exact original value, an unsupplied name yields `none` (absent), never
a default. -/
theorem claim_C6 (K : ErrorClass) (fields : Fields) (inst : ErrorInstance)
    (hc : construct K fields = some inst) :
    inst.kwargs = fields ∧
    (∀ name v, lookupField fields name = some v → fieldAccess inst name = some v) ∧
    (∀ name, lookupField fields name = none → fieldAccess inst name = none) := by
  unfold construct at hc
  cases hpf : pyFormat (fmtOf K) fields with
  | none => rw [hpf] at hc; simp at hc
  | some m =>
    rw [hpf] at hc
    simp only [Option.map_some', Option.some.injEq] at hc
    subst hc
    exact ⟨rfl, fun name v h => by simpa [fieldAccess] using h,
           fun name h => by simpa [fieldAccess] using h⟩

/-- Witness for C6: on a concrete `WaiterError` instance, the supplied field
`reason` round-trips and the unsupplied name `missing` is absent. -/
theorem claim_C6_witness :
    fieldAccess
      { msg := "Waiter foo failed: bar",
        kwargs := [("name", Value.VStr "foo"), ("reason", Value.VStr "bar")] }
      "reason" = some (Value.VStr "bar") ∧
    fieldAccess
      { msg := "Waiter foo failed: bar",
        kwargs := [("name", Value.VStr "foo"), ("reason", Value.VStr "bar")] }
      "missing" = none :=
  ⟨(claim_C6 ErrorClass.WaiterError
      [("name", Value.VStr "foo"), ("reason", Value.VStr "bar")] _ rfl).2.1
      "reason" (Value.VStr "bar") rfl,
   (claim_C6 ErrorClass.WaiterError
      [("name", Value.VStr "foo"), ("reason", Value.VStr "bar")] _ rfl).2.2
      "missing" rfl⟩

/-- C7: string conversion returns the message stored at construction,
verbatim and stably — it equals the one-time template substitution and is
unchanged by any later replacement of the retained field map. -/
theorem claim_C7 (K : ErrorClass) (fields : Fields) (inst : ErrorInstance)
    (hc : construct K fields = some inst) :
    strConv inst = inst.msg ∧
    pyFormat (fmtOf K) fields = some (strConv inst) ∧
    (∀ kw : Fields, strConv (setKwargs inst kw) = strConv inst) := by
  unfold construct at hc
  cases hpf : pyFormat (fmtOf K) fields with
  | none => rw [hpf] at hc; simp at hc
  | some m =>
    rw [hpf] at hc
    simp only [Option.map_some', Option.some.injEq] at hc
    subst hc
    exact ⟨rfl, rfl, fun kw => rfl⟩

/-- Witness for C7: on a concrete `PaginationError` instance the stored
message survives a mutation of the retained field map. -/
theorem claim_C7_witness :
    strConv { msg := "Error during pagination: oops",
              kwargs := [("message", Value.VStr "oops")] } =
      "Error during pagination: oops" ∧
    pyFormat (fmtOf ErrorClass.PaginationError) [("message", Value.VStr "oops")] =
      some (strConv { msg := "Error during pagination: oops",
                      kwargs := [("message", Value.VStr "oops")] }) ∧
    strConv (setKwargs
      { msg := "Error during pagination: oops",
        kwargs := [("message", Value.VStr "oops")] }
      [("message", Value.VStr "changed")]) =
      strConv { msg := "Error during pagination: oops",
                kwargs := [("message", Value.VStr "oops")] } :=
  ⟨(claim_C7 ErrorClass.PaginationError [("message", Value.VStr "oops")] _ rfl).1,
   (claim_C7 ErrorClass.PaginationError [("message", Value.VStr "oops")] _ rfl).2.1,
   (claim_C7 ErrorClass.PaginationError [("message", Value.VStr "oops")] _ rfl).2.2
     [("message", Value.VStr "changed")]⟩

/-- C8: a field map binding every placeholder name — in particular any strict
superset of the required set — constructs successfully, retains the extra
fields, and renders the same message as the restriction to the required
fields alone. -/
theorem claim_C8 (K : ErrorClass) (fields : Fields)
    (hbound : ∀ name ∈ requiredOf K, (lookupField fields name).isSome = true) :
    ∃ inst inst',
      construct K fields = some inst ∧
      construct K (restrictFields fields (requiredOf K)) = some inst' ∧
      inst.kwargs = fields ∧
      inst'.kwargs = restrictFields fields (requiredOf K) ∧
      inst.msg = inst'.msg := by
  have hsome := fmtGo_isSome fields (fmtOf K).data .lit (wf_fmtOf K) hbound
  cases hfg : fmtGo fields .lit (fmtOf K).data with
  | none => rw [hfg] at hsome; simp at hsome
  | some out =>
    have hag : fmtGo (restrictFields fields (requiredOf K)) .lit (fmtOf K).data =
        fmtGo fields .lit (fmtOf K).data :=
      fmtGo_agree _ _ _ _
        (fun name hmem => lookupField_restrict (requiredOf K) name hmem fields)
    refine ⟨{ msg := String.mk out, kwargs := fields },
            { msg := String.mk out, kwargs := restrictFields fields (requiredOf K) },
            ?_, ?_, rfl, rfl, rfl⟩
    · simp [construct, pyFormat, hfg]
    · simp [construct, pyFormat, hag, hfg]

/-- Witness for C8: `EventNotFound` constructed with an extra field renders
the same message as with `event_name` alone, and keeps the extra field. -/
theorem claim_C8_witness :
    ∃ inst inst',
      construct ErrorClass.EventNotFound
        [("event_name", Value.VStr "creating-client"), ("extra", Value.VInt 7)] =
        some inst ∧
      construct ErrorClass.EventNotFound
        (restrictFields
          [("event_name", Value.VStr "creating-client"), ("extra", Value.VInt 7)]
          (requiredOf ErrorClass.EventNotFound)) = some inst' ∧
      inst.kwargs =
        [("event_name", Value.VStr "creating-client"), ("extra", Value.VInt 7)] ∧
      inst'.kwargs =
        restrictFields
          [("event_name", Value.VStr "creating-client"), ("extra", Value.VInt 7)]
          (requiredOf ErrorClass.EventNotFound) ∧
      inst.msg = inst'.msg :=
  claim_C8 ErrorClass.EventNotFound _ (by decide)

/-- C10: template substitution is single pass — formatting coincides with
parsing the template into literal and placeholder segments and substituting
each placeholder wholesale by its value's string form, never rescanning the
inserted text; concretely, a `WaiterError` whose `name` field's string form
is the text `{reason}` renders with `{reason}` left verbatim even though
`reason` is itself a supplied field. -/
theorem claim_C10 :
    (∀ (fields : Fields) (tmpl : String),
      pyFormat tmpl fields =
        (parseGo .lit tmpl.data).bind
          (fun segs => (renderSegs fields segs).map String.mk)) ∧
    construct ErrorClass.WaiterError
      [("name", Value.VStr "{reason}"), ("reason", Value.VStr "xyz")] =
      some { msg := "Waiter {reason} failed: xyz",
             kwargs := [("name", Value.VStr "{reason}"), ("reason", Value.VStr "xyz")] } ∧
    (∃ pre post,
      ("Waiter {reason} failed: xyz").data = pre ++ ("{reason}").data ++ post) := by
  refine ⟨?_, rfl, ("Waiter ").data, (" failed: xyz").data, by decide⟩
  intro fields tmpl
  rw [pyFormat, fmtGo_eq_parse_render fields tmpl.data .lit]
  cases parseGo .lit tmpl.data with
  | none => rfl
  | some segs => rfl

end Botocore
